import Mathlib

/-!
Shallow embedding of the two core components of the cursor-portal repository:

* the credential token builder `generate_ghost_jwt` from
  `servers/blog/ghost_mcp_server.py` (JWT header/payload construction,
  URL-safe base64 without padding, HMAC-SHA256 signature), and
* the polling downloader `download_video` from
  `servers/creative/heygen-python-mcp/heygen-mcp-server.py` (bounded polling
  loop with completed/failed/in-progress classification, artifact fetch and
  local file write),

together with proofs of the specified behavioural properties.  Python string
and bytes primitives used by the source (`str.split`, `bytes.fromhex`,
`base64.urlsafe_b64encode`, `json.dumps`, UTF-8 encoding) are embedded
faithfully, byte for byte.  Bytes are `Nat` values below 256; remote HTTP
traffic is an explicit environment, and the side effects of a run (status
queries, sleeps, fetches, file writes) are recorded as an event trace.
-/

namespace CursorPortal

/-- Concatenation of the images of `f` over a list. -/
def listFlat (f : α → List β) : List α → List β
  | [] => []
  | a :: as => f a ++ listFlat f as

/-- Removal of every trailing occurrence of `'='`, as Python's `rstrip("=")`. -/
def dropTrailingEq : List Char → List Char
  | [] => []
  | c :: cs =>
    let r := dropTrailingEq cs
    if r = [] ∧ c = '=' then [] else c :: r

/-- Split of a character list at every occurrence of `sep`, with the semantics
of Python's `str.split(sep)`: the empty list yields one empty field. -/
def splitOnChar (sep : Char) : List Char → List (List Char)
  | [] => [[]]
  | c :: cs =>
    match splitOnChar sep cs with
    | [] => [[]]
    | r :: rs => if c = sep then [] :: r :: rs else (c :: r) :: rs

/-! ### URL-safe base64 (`base64.urlsafe_b64encode` followed by `rstrip("=")`) -/

/-- The URL-safe base64 alphabet used by Python's `base64.urlsafe_b64encode`. -/
def b64AlphabetChars : List Char :=
  ['A', 'B', 'C', 'D', 'E', 'F', 'G', 'H', 'I', 'J', 'K', 'L', 'M',
   'N', 'O', 'P', 'Q', 'R', 'S', 'T', 'U', 'V', 'W', 'X', 'Y', 'Z',
   'a', 'b', 'c', 'd', 'e', 'f', 'g', 'h', 'i', 'j', 'k', 'l', 'm',
   'n', 'o', 'p', 'q', 'r', 's', 't', 'u', 'v', 'w', 'x', 'y', 'z',
   '0', '1', '2', '3', '4', '5', '6', '7', '8', '9', '-', '_']

/-- Character of the URL-safe base64 alphabet at index `n` (indices in real use
are always below 64). -/
def b64Char (n : Nat) : Char := b64AlphabetChars.getD n 'A'

/-- Padded base64 encoding of a byte list, three bytes to four characters,
with `'='` padding on a final one- or two-byte group. -/
def b64EncodeChunks : List Nat → List Char
  | [] => []
  | [b0] => [b64Char (b0 / 4), b64Char (b0 % 4 * 16), '=', '=']
  | [b0, b1] => [b64Char (b0 / 4), b64Char (b0 % 4 * 16 + b1 / 16), b64Char (b1 % 16 * 4), '=']
  | b0 :: b1 :: b2 :: rest =>
      b64Char (b0 / 4) :: b64Char (b0 % 4 * 16 + b1 / 16) ::
      b64Char (b1 % 16 * 4 + b2 / 64) :: b64Char (b2 % 64) :: b64EncodeChunks rest

/-- The base64 characters of `b64EncodeChunks` without the padding. -/
def b64Body : List Nat → List Char
  | [] => []
  | [b0] => [b64Char (b0 / 4), b64Char (b0 % 4 * 16)]
  | [b0, b1] => [b64Char (b0 / 4), b64Char (b0 % 4 * 16 + b1 / 16), b64Char (b1 % 16 * 4)]
  | b0 :: b1 :: b2 :: rest =>
      b64Char (b0 / 4) :: b64Char (b0 % 4 * 16 + b1 / 16) ::
      b64Char (b1 % 16 * 4 + b2 / 64) :: b64Char (b2 % 64) :: b64Body rest

/-- URL-safe base64 encoding with the `'='` padding stripped, as the helper
`base64_url_encode` of `ghost_mcp_server.py` (line 73). -/
def b64UrlNoPad (l : List Nat) : String := ⟨dropTrailingEq (b64EncodeChunks l)⟩

/-! ### UTF-8 encoding (Python's `str.encode()`) -/

/-- UTF-8 encoding of a single character. -/
def utf8EncodeChar (c : Char) : List Nat :=
  let n := c.toNat
  if n < 128 then [n]
  else if n < 2048 then [192 + n / 64, 128 + n % 64]
  else if n < 65536 then [224 + n / 4096, 128 + n / 64 % 64, 128 + n % 64]
  else [240 + n / 262144, 128 + n / 4096 % 64, 128 + n / 64 % 64, 128 + n % 64]

/-- UTF-8 encoding of a string, as Python's `str.encode()`. -/
def strBytes (s : String) : List Nat := listFlat utf8EncodeChar s.data

/-! ### Python `bytes.fromhex` and `str.split(":")` -/

/-- ASCII whitespace in the sense of CPython's `Py_ISSPACE`, the predicate
`bytes.fromhex` uses to skip separators between byte pairs: space and the
characters `\t`, `\n`, `\v`, `\f`, `\r`. -/
def isPySpace (c : Char) : Bool :=
  c.toNat == 32 || (9 ≤ c.toNat && c.toNat ≤ 13)

/-- Value of a hexadecimal digit, case-insensitive, as CPython's digit table. -/
def hexDigitVal (c : Char) : Option Nat :=
  let n := c.toNat
  if 48 ≤ n ∧ n ≤ 57 then some (n - 48)
  else if 97 ≤ n ∧ n ≤ 102 then some (n - 97 + 10)
  else if 65 ≤ n ∧ n ≤ 70 then some (n - 65 + 10)
  else none

/-- Python's `bytes.fromhex`: ASCII whitespace may appear before, between and
after two-digit groups, never inside one; an odd digit or a non-hex, non-space
character fails (`ValueError`). -/
def pyFromhex : List Char → Option (List Nat)
  | [] => some []
  | c :: cs =>
    if isPySpace c then pyFromhex cs
    else
      match hexDigitVal c with
      | none => none
      | some hi =>
        match cs with
        | [] => none
        | c2 :: cs2 =>
          match hexDigitVal c2 with
          | none => none
          | some lo => (pyFromhex cs2).map fun r => (hi * 16 + lo) :: r

/-- Python's `key_id, secret = admin_api_key.split(":")`: the split must yield
exactly two fields, i.e. the string must contain exactly one colon; otherwise
unpacking raises (`ValueError`). -/
def pySplitColon (s : String) : Option (String × String) :=
  match splitOnChar ':' s.data with
  | [a, b] => some (⟨a⟩, ⟨b⟩)
  | _ => none

/-! ### Compact JSON serialization (`json.dumps(..., separators=(",", ":"))`) -/

/-- Decimal digit character. -/
def digitChar (n : Nat) : Char :=
  match n with
  | 0 => '0' | 1 => '1' | 2 => '2' | 3 => '3' | 4 => '4'
  | 5 => '5' | 6 => '6' | 7 => '7' | 8 => '8' | _ => '9'

/-- Lowercase hexadecimal digit character. -/
def hexCharLower (n : Nat) : Char :=
  match n with
  | 0 => '0' | 1 => '1' | 2 => '2' | 3 => '3' | 4 => '4'
  | 5 => '5' | 6 => '6' | 7 => '7' | 8 => '8' | 9 => '9'
  | 10 => 'a' | 11 => 'b' | 12 => 'c' | 13 => 'd' | 14 => 'e' | _ => 'f'

/-- Four-digit lowercase hexadecimal rendering, as Python's `'\\u%04x'` body. -/
def toHex4 (n : Nat) : List Char :=
  [hexCharLower (n / 4096 % 16), hexCharLower (n / 256 % 16),
   hexCharLower (n / 16 % 16), hexCharLower (n % 16)]

/-- Decimal rendering of a natural number, as Python's `str(int)` for the
non-negative values produced by `int(time.time())`. -/
def decimalAux : Nat → Nat → List Char → List Char
  | 0, _, acc => acc
  | fuel + 1, n, acc =>
    if n < 10 then digitChar (n % 10) :: acc
    else decimalAux fuel (n / 10) (digitChar (n % 10) :: acc)

/-- Decimal digits of `n`. -/
def decimalRepr (n : Nat) : List Char := decimalAux (n + 1) n []

/-- Escape of one character inside a JSON string under `json.dumps` defaults
(`ensure_ascii=True`): `\"` and `\\`, short escapes for the five named control
characters, `\uXXXX` for other control and all non-ASCII characters, with a
surrogate pair above U+FFFF. -/
def jsonEscapeChar (c : Char) : List Char :=
  if c = '\\' then ['\\', '\\']
  else if c = '"' then ['\\', '"']
  else if c.toNat = 8 then ['\\', 'b']
  else if c.toNat = 9 then ['\\', 't']
  else if c.toNat = 10 then ['\\', 'n']
  else if c.toNat = 12 then ['\\', 'f']
  else if c.toNat = 13 then ['\\', 'r']
  else if c.toNat < 32 ∨ 126 < c.toNat then
    if c.toNat < 65536 then '\\' :: 'u' :: toHex4 c.toNat
    else
      '\\' :: 'u' :: toHex4 (55296 + (c.toNat - 65536) / 1024) ++
        ('\\' :: 'u' :: toHex4 (56320 + (c.toNat - 65536) % 1024))
  else [c]

/-- `json.dumps` of a Python string under default options. -/
def jsonDumpsString (s : String) : String :=
  ⟨'"' :: listFlat jsonEscapeChar s.data ++ ['"']⟩

/-- The serialized JWT header
`json.dumps({"alg": "HS256", "kid": key_id, "typ": "JWT"}, separators=(",", ":"))`
(dict insertion order is preserved). -/
def headerJson (key_id : String) : String :=
  "\x7b\"alg\":\"HS256\",\"kid\":" ++ jsonDumpsString key_id ++ ",\"typ\":\"JWT\"\x7d"

/-- The serialized JWT payload
`json.dumps({"iat": iat, "exp": exp, "aud": "/admin/"}, separators=(",", ":"))`. -/
def payloadJson (iat exp : Nat) : String :=
  "\x7b\"iat\":" ++ ⟨decimalRepr iat⟩ ++ ",\"exp\":" ++ ⟨decimalRepr exp⟩ ++
    ",\"aud\":\"/admin/\"\x7d"

/-! ### URL-safe base64 decoding (for the round-trip statements) -/

/-- Index of a character in a list, counting from `k`. -/
def charIndexAux (c : Char) : List Char → Nat → Option Nat
  | [], _ => none
  | a :: as, k => if a = c then some k else charIndexAux c as (k + 1)

/-- Index of a character in the URL-safe base64 alphabet. -/
def b64CharVal (c : Char) : Option Nat := charIndexAux c b64AlphabetChars 0

/-- Decoding of unpadded URL-safe base64 text back to bytes (as
`base64.urlsafe_b64decode` after re-padding: trailing bits beyond a whole
byte are discarded). -/
def b64DecodeNoPad : List Char → Option (List Nat)
  | [] => some []
  | [c0, c1] =>
    match b64CharVal c0, b64CharVal c1 with
    | some v0, some v1 => some [v0 * 4 + v1 / 16]
    | _, _ => none
  | [c0, c1, c2] =>
    match b64CharVal c0, b64CharVal c1, b64CharVal c2 with
    | some v0, some v1, some v2 => some [v0 * 4 + v1 / 16, v1 % 16 * 16 + v2 / 4]
    | _, _, _ => none
  | c0 :: c1 :: c2 :: c3 :: rest =>
    match b64CharVal c0, b64CharVal c1, b64CharVal c2, b64CharVal c3, b64DecodeNoPad rest with
    | some v0, some v1, some v2, some v3, some rs =>
        some ((v0 * 4 + v1 / 16) :: (v1 % 16 * 16 + v2 / 4) :: (v2 % 4 * 64 + v3) :: rs)
    | _, _, _, _, _ => none
  | _ => none

/-! ### SHA-256 and HMAC-SHA256 (`hashlib.sha256`, `hmac.new(...).digest()`)

Words are `Nat` values reduced modulo `2 ^ 32` wherever addition can
overflow; bytes are `Nat` values below 256 by construction. -/

/-- Right rotation of a 32-bit word. -/
def rotr32 (n x : Nat) : Nat := ((x >>> n) ||| (x <<< (32 - n))) % 4294967296

/-- SHA-256 round constants, the first 32 bits of the fractional parts of the
cube roots of the first 64 primes. -/
def sha256K : List Nat :=
  [1116352408, 1899447441, 3049323471, 3921009573, 961987163,
   1508970993, 2453635748, 2870763221, 3624381080, 310598401,
   607225278, 1426881987, 1925078388, 2162078206, 2614888103,
   3248222580, 3835390401, 4022224774, 264347078, 604807628,
   770255983, 1249150122, 1555081692, 1996064986, 2554220882,
   2821834349, 2952996808, 3210313671, 3336571891, 3584528711,
   113926993, 338241895, 666307205, 773529912, 1294757372,
   1396182291, 1695183700, 1986661051, 2177026350, 2456956037,
   2730485921, 2820302411, 3259730800, 3345764771, 3516065817,
   3600352804, 4094571909, 275423344, 430227734, 506948616,
   659060556, 883997877, 958139571, 1322822218, 1537002063,
   1747873779, 1955562222, 2024104815, 2227730452, 2361852424,
   2428436474, 2756734187, 3204031479, 3329325298]

/-- SHA-256 initial hash value. -/
def sha256H0 : Nat × Nat × Nat × Nat × Nat × Nat × Nat × Nat :=
  (1779033703, 3144134277, 1013904242, 2773480762,
   1359893119, 2600822924, 528734635, 1541459225)

/-- Big-endian bytes of a 32-bit word. -/
def word32Bytes (w : Nat) : List Nat :=
  [w / 16777216 % 256, w / 65536 % 256, w / 256 % 256, w % 256]

/-- Big-endian bytes of a 64-bit length field. -/
def word64Bytes (w : Nat) : List Nat :=
  [w / 72057594037927936 % 256, w / 281474976710656 % 256,
   w / 1099511627776 % 256, w / 4294967296 % 256,
   w / 16777216 % 256, w / 65536 % 256, w / 256 % 256, w % 256]

/-- SHA-256 message padding: a `0x80` byte, zeros to 56 modulo 64, then the
bit length as a 64-bit big-endian integer. -/
def sha256Pad (msg : List Nat) : List Nat :=
  msg ++ (128 :: List.replicate ((119 - msg.length % 64) % 64) 0) ++
    word64Bytes (msg.length * 8)

/-- Big-endian grouping of bytes into 32-bit words. -/
def bytesToWords32 : List Nat → List Nat
  | b0 :: b1 :: b2 :: b3 :: rest =>
      (b0 * 16777216 + b1 * 65536 + b2 * 256 + b3) :: bytesToWords32 rest
  | _ => []

/-- Message-schedule extension: `acc` holds the words produced so far in
reverse order; `fuel` more words are appended. -/
def sha256Extend : Nat → List Nat → List Nat
  | 0, acc => acc
  | fuel + 1, acc =>
    let s0 :=
      rotr32 7 (acc.getD 14 0) ^^^ rotr32 18 (acc.getD 14 0) ^^^ (acc.getD 14 0 >>> 3)
    let s1 :=
      rotr32 17 (acc.getD 1 0) ^^^ rotr32 19 (acc.getD 1 0) ^^^ (acc.getD 1 0 >>> 10)
    sha256Extend fuel (((s1 + acc.getD 6 0 + s0 + acc.getD 15 0) % 4294967296) :: acc)

/-- One round of the SHA-256 compression function. -/
def sha256Round (st : Nat × Nat × Nat × Nat × Nat × Nat × Nat × Nat) (kw : Nat × Nat) :
    Nat × Nat × Nat × Nat × Nat × Nat × Nat × Nat :=
  let (a, b, c, d, e, f, g, h) := st
  let s1 := rotr32 6 e ^^^ rotr32 11 e ^^^ rotr32 25 e
  let ch := (e &&& f) ^^^ ((e ^^^ 4294967295) &&& g)
  let temp1 := (h + s1 + ch + kw.1 + kw.2) % 4294967296
  let s0 := rotr32 2 a ^^^ rotr32 13 a ^^^ rotr32 22 a
  let maj := (a &&& b) ^^^ (a &&& c) ^^^ (b &&& c)
  let temp2 := (s0 + maj) % 4294967296
  ((temp1 + temp2) % 4294967296, a, b, c, (d + temp1) % 4294967296, e, f, g)

/-- Componentwise modular addition of two hash states. -/
def sha256Add (x y : Nat × Nat × Nat × Nat × Nat × Nat × Nat × Nat) :
    Nat × Nat × Nat × Nat × Nat × Nat × Nat × Nat :=
  ((x.1 + y.1) % 4294967296,
   (x.2.1 + y.2.1) % 4294967296,
   (x.2.2.1 + y.2.2.1) % 4294967296,
   (x.2.2.2.1 + y.2.2.2.1) % 4294967296,
   (x.2.2.2.2.1 + y.2.2.2.2.1) % 4294967296,
   (x.2.2.2.2.2.1 + y.2.2.2.2.2.1) % 4294967296,
   (x.2.2.2.2.2.2.1 + y.2.2.2.2.2.2.1) % 4294967296,
   (x.2.2.2.2.2.2.2 + y.2.2.2.2.2.2.2) % 4294967296)

/-- Processing of `fuel` sixteen-word blocks. -/
def sha256Blocks : Nat → List Nat → Nat × Nat × Nat × Nat × Nat × Nat × Nat × Nat →
    Nat × Nat × Nat × Nat × Nat × Nat × Nat × Nat
  | 0, _, st => st
  | fuel + 1, ws, st =>
    let w := (sha256Extend 48 (ws.take 16).reverse).reverse
    let st2 := (sha256K.zip w).foldl sha256Round st
    sha256Blocks fuel (ws.drop 16) (sha256Add st st2)

/-- SHA-256 digest of a byte list. -/
def sha256 (msg : List Nat) : List Nat :=
  let ws := bytesToWords32 (sha256Pad msg)
  let st := sha256Blocks (ws.length / 16) ws sha256H0
  word32Bytes st.1 ++ word32Bytes st.2.1 ++ word32Bytes st.2.2.1 ++
    word32Bytes st.2.2.2.1 ++ word32Bytes st.2.2.2.2.1 ++ word32Bytes st.2.2.2.2.2.1 ++
    word32Bytes st.2.2.2.2.2.2.1 ++ word32Bytes st.2.2.2.2.2.2.2

/-- HMAC-SHA256, as `hmac.new(key, msg, hashlib.sha256).digest()`: the key is
hashed when longer than the 64-byte block, zero-padded to the block size, and
combined with the inner and outer pad constants. -/
def hmacSha256 (key msg : List Nat) : List Nat :=
  let k0 := if 64 < key.length then sha256 key else key
  let k := k0 ++ List.replicate (64 - k0.length) 0
  sha256 ((k.map fun b => b ^^^ 92) ++ sha256 ((k.map fun b => b ^^^ 54) ++ msg))

/-! ### The credential token builder (`generate_ghost_jwt`, lines 39-90) -/

/-- Credential parsing, lines 51-54 of `ghost_mcp_server.py`: split on `":"`
into exactly two fields, then hex-decode the secret; any failure propagates as
a raised error, modelled as `none`. -/
def credParse (admin_api_key : String) : Option (String × List Nat) :=
  match pySplitColon admin_api_key with
  | none => none
  | some (key_id, secret) => (pyFromhex secret.data).map fun b => (key_id, b)

/-- Token construction for an already-parsed credential, lines 56-86:
compact JSON header and payload, URL-safe base64 without padding, and an
HMAC-SHA256 signature over `header_b64 + "." + payload_b64`.  `now` is the
wall-clock `int(time.time())` at generation time. -/
def mkGhostToken (now : Nat) (key_id : String) (secret_bytes : List Nat) : String :=
  let iat := now
  let exp := iat + 5 * 60
  let header_b64 := b64UrlNoPad (strBytes (headerJson key_id))
  let payload_b64 := b64UrlNoPad (strBytes (payloadJson iat exp))
  let signature := hmacSha256 secret_bytes (strBytes (header_b64 ++ "." ++ payload_b64))
  header_b64 ++ "." ++ payload_b64 ++ "." ++ b64UrlNoPad signature

/-- The function `generate_ghost_jwt` of `ghost_mcp_server.py`: `none` models
the raised error on a malformed credential. -/
def generate_ghost_jwt (now : Nat) (admin_api_key : String) : Option String :=
  (credParse admin_api_key).map fun p => mkGhostToken now p.1 p.2

/-! ### The polling downloader (`download_video`, lines 134-198 of
`heygen-mcp-server.py`)

The remote API is an explicit environment: the `i`-th status query returns
`statusResp i`, a fetch of `url` returns `fetchResp url`.  A run produces the
trace of its side effects (status queries, sleeps, artifact fetches, file
writes) and its outcome: the saved-file path, or the raised error. -/

/-- The `data.video_url` field of a status response: absent key, JSON `null`,
or a string. -/
inductive VUrl where
  | missing
  | null
  | str (s : String)
deriving DecidableEq, Repr

/-- One response of the job-status endpoint, as far as `download_video` reads
it: the HTTP status code, the `data.status` field (`none` models a missing
key path, raising `KeyError`), and the `data.video_url` field. -/
structure StatusResponse where
  httpCode : Nat
  body_status : Option String
  body_video_url : VUrl
deriving DecidableEq, Repr

/-- One response of an artifact fetch. -/
structure FetchResponse where
  httpCode : Nat
  content : List Nat
deriving DecidableEq, Repr

/-- The remote environment of one `download_video` run. -/
structure Env where
  statusResp : Nat → StatusResponse
  fetchResp : String → FetchResponse

/-- A side effect performed by `download_video`. -/
inductive Event where
  | statusQuery (i : Nat)
  | sleep (seconds : ℚ)
  | fetchGet (url : String)
  | fileWrite (path : String) (content : List Nat)
deriving DecidableEq, Repr

/-- The errors `download_video` can raise.  `httpError` is the
`requests.HTTPError` raised by `raise_for_status()`, which carries the whole
response (`response=self`): both its status code and its body. -/
inductive DlError where
  | keyError
  | missingUrl
  | processingFailed
  | httpError (code : Nat) (body : List Nat)
  | pollTimeout
deriving DecidableEq, Repr

/-- Predicate for a status-query event. -/
def Event.isQuery : Event → Bool
  | .statusQuery _ => true
  | _ => false

/-- Predicate for a sleep event. -/
def Event.isSleepEv : Event → Bool
  | .sleep _ => true
  | _ => false

/-- Predicate for an artifact-fetch event. -/
def Event.isFetch : Event → Bool
  | .fetchGet _ => true
  | _ => false

/-- Predicate for a file-write event. -/
def Event.isWrite : Event → Bool
  | .fileWrite _ _ => true
  | _ => false

/-- The saved-file path `os.path.join(OUTPUT_DIR, f"video_{video_id}.mp4")`. -/
def videoPath (outDir video_id : String) : String :=
  outDir ++ "/video_" ++ video_id ++ ".mp4"

/-- The `while retries < max_retries` loop of `download_video`, lines 156-192.
`fuel` is `max_retries - retries` and `i` is the current value of `retries`.
Each iteration queries the status endpoint; a `completed` status reads
`video_url` (raising `KeyError` when the key is absent and the explicit
`ValueError` when its value is falsy), fetches the artifact, checks the fetch
with `raise_for_status()` (an error for codes 400-599), writes the file and
returns the path; a `failed` status raises at once; anything else sleeps for
`interval` seconds and retries.  Note that the status query itself is never
checked with `raise_for_status()`. -/
def downloadLoop (env : Env) (vid outDir : String) (interval : ℚ) :
    Nat → Nat → List Event × Except DlError String
  | 0, _ => ([], .error .pollTimeout)
  | fuel + 1, i =>
    match (env.statusResp i).body_status with
    | none => ([.statusQuery i], .error .keyError)
    | some st =>
      if st = "completed" then
        match (env.statusResp i).body_video_url with
        | .missing => ([.statusQuery i], .error .keyError)
        | .null => ([.statusQuery i], .error .missingUrl)
        | .str u =>
          if u = "" then ([.statusQuery i], .error .missingUrl)
          else
            let f := env.fetchResp u
            if 400 ≤ f.httpCode ∧ f.httpCode < 600 then
              ([.statusQuery i, .fetchGet u], .error (.httpError f.httpCode f.content))
            else
              ([.statusQuery i, .fetchGet u,
                .fileWrite (videoPath outDir vid) f.content],
               .ok (videoPath outDir vid))
      else if st = "failed" then
        ([.statusQuery i], .error .processingFailed)
      else
        let r := downloadLoop env vid outDir interval fuel (i + 1)
        (.statusQuery i :: .sleep interval :: r.1, r.2)

/-- The function `download_video` of `heygen-mcp-server.py`: converts the
millisecond polling interval by true division (`poll_interval / 1000`,
line 153) and runs the bounded polling loop from `retries = 0`. -/
def download_video (env : Env) (video_id outDir : String)
    (poll_interval max_retries : Nat) : List Event × Except DlError String :=
  downloadLoop env video_id outDir ((poll_interval : ℚ) / 1000) max_retries 0

/-- The expected trace of a run whose every query reports an in-progress
status: queries from `i`, each followed by one sleep. -/
def pendTrace (d : ℚ) : Nat → Nat → List Event
  | _, 0 => []
  | i, n + 1 => .statusQuery i :: .sleep d :: pendTrace d (i + 1) n

/-- An in-progress (neither completed nor failed) status response whose
`data.status` field is present. -/
def InProgress (r : StatusResponse) : Prop :=
  ∃ s, r.body_status = some s ∧ s ≠ "completed" ∧ s ≠ "failed"

/-! ### Spec-side predicates and concrete environments -/

/-- A hexadecimal digit character. -/
def isHexDigitChar (c : Char) : Bool :=
  (48 ≤ c.toNat && c.toNat ≤ 57) || (97 ≤ c.toNat && c.toNat ≤ 102) ||
    (65 ≤ c.toNat && c.toNat ≤ 70)

/-- The spec's constraint on a credential secret, quoted: "the secret must
have even length and contain only hex digits". -/
def SpecEvenHexSecret (s : String) : Prop :=
  s.data.length % 2 = 0 ∧ ∀ c ∈ s.data, isHexDigitChar c = true

instance (s : String) : Decidable (SpecEvenHexSecret s) := by
  unfold SpecEvenHexSecret
  infer_instance

/-- An environment whose status endpoint always reports `completed` with the
`data.video_url` key entirely absent from the response. -/
def completedNoUrlKeyEnv : Env where
  statusResp := fun _ => ⟨200, some "completed", .missing⟩
  fetchResp := fun _ => ⟨200, []⟩

/-- An environment whose status endpoint always answers with HTTP code 500
and a body reporting an in-progress status. -/
def error500PendingEnv : Env where
  statusResp := fun _ => ⟨500, some "processing", .missing⟩
  fetchResp := fun _ => ⟨200, []⟩

theorem listFlat_append (f : α → List β) (l₁ l₂ : List α) :
    listFlat f (l₁ ++ l₂) = listFlat f l₁ ++ listFlat f l₂ := by
  induction l₁ with
  | nil => simp [listFlat]
  | cons a as ih => simp [listFlat, ih]

theorem splitOnChar_ne_nil (sep : Char) (l : List Char) : splitOnChar sep l ≠ [] := by
  cases l with
  | nil => simp [splitOnChar]
  | cons c cs =>
    simp only [splitOnChar]
    cases splitOnChar sep cs with
    | nil => simp
    | cons r rs =>
      by_cases h : c = sep <;> simp [h]

theorem splitOnChar_nosep (sep : Char) (l : List Char) (h : sep ∉ l) :
    splitOnChar sep l = [l] := by
  induction l with
  | nil => rfl
  | cons c cs ih =>
    have hc : c ≠ sep := fun hcs => h (hcs ▸ List.mem_cons_self c cs)
    have hcs : sep ∉ cs := fun hm => h (List.mem_cons_of_mem c hm)
    simp only [splitOnChar, ih hcs]
    simp [hc]

theorem splitOnChar_sep (sep : Char) (a rest : List Char) (h : sep ∉ a) :
    splitOnChar sep (a ++ sep :: rest) = a :: splitOnChar sep rest := by
  induction a with
  | nil =>
    simp only [List.nil_append, splitOnChar]
    rcases hb : splitOnChar sep rest with _ | ⟨r, rs⟩
    · exact absurd hb (splitOnChar_ne_nil sep rest)
    · simp
  | cons c cs ih =>
    have hc : c ≠ sep := fun hcs => h (hcs ▸ List.mem_cons_self c cs)
    have hcs : sep ∉ cs := fun hm => h (List.mem_cons_of_mem c hm)
    simp only [List.cons_append, splitOnChar, List.append_eq]
    rw [ih hcs]
    simp [hc]

theorem dropTrailingEq_append (l₁ l₂ : List Char) (h : dropTrailingEq l₂ ≠ []) :
    dropTrailingEq (l₁ ++ l₂) = l₁ ++ dropTrailingEq l₂ := by
  induction l₁ with
  | nil => rfl
  | cons c cs ih =>
    simp only [List.cons_append, dropTrailingEq, List.append_eq]
    rw [ih]
    have : ¬(cs ++ dropTrailingEq l₂ = [] ∧ c = '=') := by
      rintro ⟨hnil, -⟩
      exact h (List.append_eq_nil.mp hnil).2
    rw [if_neg this]

theorem dropTrailingEq_of_not_mem (l : List Char) (h : '=' ∉ l) :
    dropTrailingEq l = l := by
  induction l with
  | nil => rfl
  | cons c cs ih =>
    have hc : c ≠ '=' := fun hcs => h (hcs ▸ List.mem_cons_self c cs)
    have hcs : '=' ∉ cs := fun hm => h (List.mem_cons_of_mem c hm)
    simp [dropTrailingEq, ih hcs, hc]

theorem b64Char_mem (n : Nat) : b64Char n ∈ b64AlphabetChars := by
  unfold b64Char
  rcases Nat.lt_or_ge n b64AlphabetChars.length with h | h
  · rw [List.getD_eq_getElem _ _ h]
    exact List.getElem_mem h
  · rw [List.getD_eq_default _ _ h]
    decide

theorem b64Body_mem : ∀ l : List Nat, ∀ c ∈ b64Body l, c ∈ b64AlphabetChars
  | [], c, hc => by simp [b64Body] at hc
  | [b0], c, hc => by
    simp only [b64Body, List.mem_cons, List.not_mem_nil, or_false] at hc
    rcases hc with h | h <;> exact h ▸ b64Char_mem _
  | [b0, b1], c, hc => by
    simp only [b64Body, List.mem_cons, List.not_mem_nil, or_false] at hc
    rcases hc with h | h | h <;> exact h ▸ b64Char_mem _
  | b0 :: b1 :: b2 :: rest, c, hc => by
    simp only [b64Body, List.mem_cons] at hc
    rcases hc with h | h | h | h | h
    · exact h ▸ b64Char_mem _
    · exact h ▸ b64Char_mem _
    · exact h ▸ b64Char_mem _
    · exact h ▸ b64Char_mem _
    · exact b64Body_mem rest c h

theorem b64Body_ne_nil : ∀ l : List Nat, l ≠ [] → b64Body l ≠ []
  | [], h, _ => h rfl
  | [b0], _, h => by simp [b64Body] at h
  | [b0, b1], _, h => by simp [b64Body] at h
  | b0 :: b1 :: b2 :: rest, _, h => by simp [b64Body] at h

theorem b64Char_ne_pad (n : Nat) : b64Char n ≠ '=' := by
  have h := b64Char_mem n
  intro heq
  rw [heq] at h
  exact absurd h (by decide)

/-- Stripping the padding from the chunked encoding leaves exactly the body. -/
theorem dropTrailingEq_b64EncodeChunks :
    ∀ l : List Nat, dropTrailingEq (b64EncodeChunks l) = b64Body l
  | [] => rfl
  | [b0] => by
    simp [b64EncodeChunks, b64Body, dropTrailingEq, b64Char_ne_pad]
  | [b0, b1] => by
    simp [b64EncodeChunks, b64Body, dropTrailingEq, b64Char_ne_pad]
  | b0 :: b1 :: b2 :: rest => by
    rcases eq_or_ne rest [] with hrest | hrest
    · subst hrest
      simp [b64EncodeChunks, b64Body, dropTrailingEq, b64Char_ne_pad]
    · have hne : dropTrailingEq (b64EncodeChunks rest) ≠ [] := by
        rw [dropTrailingEq_b64EncodeChunks rest]
        exact b64Body_ne_nil rest hrest
      show dropTrailingEq
          ([b64Char (b0 / 4), b64Char (b0 % 4 * 16 + b1 / 16),
            b64Char (b1 % 16 * 4 + b2 / 64), b64Char (b2 % 64)] ++ b64EncodeChunks rest) = _
      rw [dropTrailingEq_append _ _ hne, dropTrailingEq_b64EncodeChunks rest]
      rfl

theorem b64UrlNoPad_mem (l : List Nat) : ∀ c ∈ (b64UrlNoPad l).data, c ∈ b64AlphabetChars := by
  intro c hc
  have : (b64UrlNoPad l).data = b64Body l := dropTrailingEq_b64EncodeChunks l
  rw [this] at hc
  exact b64Body_mem l c hc

theorem b64UrlNoPad_no_dot (l : List Nat) : ('.' : Char) ∉ (b64UrlNoPad l).data := by
  intro h
  have := b64UrlNoPad_mem l '.' h
  exact absurd this (by decide)

theorem b64UrlNoPad_no_pad (l : List Nat) : ('=' : Char) ∉ (b64UrlNoPad l).data := by
  intro h
  have := b64UrlNoPad_mem l '=' h
  exact absurd this (by decide)

theorem char_toNat_lt (c : Char) : c.toNat < 1114112 := by
  rcases c.valid with h | ⟨-, h⟩
  · exact Nat.lt_trans h (by norm_num)
  · exact h

theorem utf8EncodeChar_lt (c : Char) : ∀ b ∈ utf8EncodeChar c, b < 256 := by
  intro b hb
  have hc := char_toNat_lt c
  unfold utf8EncodeChar at hb
  by_cases h1 : c.toNat < 128
  · simp only [h1, if_true, List.mem_singleton] at hb
    omega
  · simp only [h1, if_false] at hb
    by_cases h2 : c.toNat < 2048
    · simp only [h2, if_true, List.mem_cons, List.not_mem_nil, or_false] at hb
      rcases hb with hb | hb <;> omega
    · simp only [h2, if_false] at hb
      by_cases h3 : c.toNat < 65536
      · simp only [h3, if_true, List.mem_cons, List.not_mem_nil, or_false] at hb
        rcases hb with hb | hb | hb <;> omega
      · simp only [h3, if_false, List.mem_cons, List.not_mem_nil, or_false] at hb
        rcases hb with hb | hb | hb | hb <;> omega

theorem strBytes_lt (s : String) : ∀ b ∈ strBytes s, b < 256 := by
  show ∀ b ∈ listFlat utf8EncodeChar s.data, b < 256
  induction s.data with
  | nil => intro b hb; simp [listFlat] at hb
  | cons c cs ih =>
    intro b hb
    simp only [listFlat, List.mem_append] at hb
    rcases hb with hb | hb
    · exact utf8EncodeChar_lt c b hb
    · exact ih b hb

theorem b64CharVal_b64Char : ∀ i, i < 64 → b64CharVal (b64Char i) = some i := by decide

/-- Decoding inverts the padding-stripped encoding on genuine byte lists. -/
theorem b64DecodeNoPad_body :
    ∀ l : List Nat, (∀ b ∈ l, b < 256) → b64DecodeNoPad (b64Body l) = some l
  | [], _ => rfl
  | [b0], h => by
    have hb0 : b0 < 256 := h b0 (by simp)
    have e0 := b64CharVal_b64Char (b0 / 4) (by omega)
    have e1 := b64CharVal_b64Char (b0 % 4 * 16) (by omega)
    simp only [b64Body, b64DecodeNoPad, e0, e1, Option.some.injEq, List.cons.injEq, and_true]
    omega
  | [b0, b1], h => by
    have hb0 : b0 < 256 := h b0 (by simp)
    have hb1 : b1 < 256 := h b1 (by simp)
    have e0 := b64CharVal_b64Char (b0 / 4) (by omega)
    have e1 := b64CharVal_b64Char (b0 % 4 * 16 + b1 / 16) (by omega)
    have e2 := b64CharVal_b64Char (b1 % 16 * 4) (by omega)
    simp only [b64Body, b64DecodeNoPad, e0, e1, e2, Option.some.injEq, List.cons.injEq,
      and_true]
    constructor <;> omega
  | b0 :: b1 :: b2 :: rest, h => by
    have hb0 : b0 < 256 := h b0 (by simp)
    have hb1 : b1 < 256 := h b1 (by simp)
    have hb2 : b2 < 256 := h b2 (by simp)
    have ih := b64DecodeNoPad_body rest fun b hb => h b (by simp [hb])
    have e0 := b64CharVal_b64Char (b0 / 4) (by omega)
    have e1 := b64CharVal_b64Char (b0 % 4 * 16 + b1 / 16) (by omega)
    have e2 := b64CharVal_b64Char (b1 % 16 * 4 + b2 / 64) (by omega)
    have e3 := b64CharVal_b64Char (b2 % 64) (by omega)
    rcases rest with - | ⟨r0, rest'⟩
    · simp only [b64Body, b64DecodeNoPad, e0, e1, e2, e3, Option.some.injEq, List.cons.injEq,
        and_true]
      refine ⟨by omega, by omega, by omega⟩
    · have hbody : ∃ c cs, b64Body (r0 :: rest') = c :: cs := by
        rcases rest' with - | ⟨r1, rest''⟩
        · exact ⟨_, _, rfl⟩
        · rcases rest'' with - | ⟨r2, rest3⟩ <;> exact ⟨_, _, rfl⟩
      obtain ⟨c, cs, hc⟩ := hbody
      rw [show b64Body (b0 :: b1 :: b2 :: r0 :: rest') =
        b64Char (b0 / 4) :: b64Char (b0 % 4 * 16 + b1 / 16) ::
          b64Char (b1 % 16 * 4 + b2 / 64) :: b64Char (b2 % 64) :: b64Body (r0 :: rest')
        from rfl, hc]
      rw [hc] at ih
      simp only [b64DecodeNoPad, e0, e1, e2, e3, ih, Option.some.injEq, List.cons.injEq]
      refine ⟨by omega, by omega, by omega, trivial⟩

/-- Decoding inverts `b64UrlNoPad` on byte lists. -/
theorem b64DecodeNoPad_b64UrlNoPad (l : List Nat) (h : ∀ b ∈ l, b < 256) :
    b64DecodeNoPad (b64UrlNoPad l).data = some l := by
  show b64DecodeNoPad (dropTrailingEq (b64EncodeChunks l)) = some l
  rw [dropTrailingEq_b64EncodeChunks]
  exact b64DecodeNoPad_body l h

theorem mkGhostToken_data (now : Nat) (kid : String) (key : List Nat) :
    (mkGhostToken now kid key).data =
      (b64UrlNoPad (strBytes (headerJson kid))).data ++ '.' ::
        ((b64UrlNoPad (strBytes (payloadJson now (now + 5 * 60)))).data ++ '.' ::
          (b64UrlNoPad (hmacSha256 key (strBytes
            (b64UrlNoPad (strBytes (headerJson kid)) ++ "." ++
              b64UrlNoPad (strBytes (payloadJson now (now + 5 * 60))))))).data) := by
  show (b64UrlNoPad (strBytes (headerJson kid)) ++ "." ++
      b64UrlNoPad (strBytes (payloadJson now (now + 5 * 60))) ++ "." ++
      b64UrlNoPad (hmacSha256 key (strBytes
        (b64UrlNoPad (strBytes (headerJson kid)) ++ "." ++
          b64UrlNoPad (strBytes (payloadJson now (now + 5 * 60))))))).data = _
  simp [String.data_append]

theorem mkGhostToken_split (now : Nat) (kid : String) (key : List Nat) :
    splitOnChar '.' (mkGhostToken now kid key).data =
      [(b64UrlNoPad (strBytes (headerJson kid))).data,
       (b64UrlNoPad (strBytes (payloadJson now (now + 5 * 60)))).data,
       (b64UrlNoPad (hmacSha256 key (strBytes
         (b64UrlNoPad (strBytes (headerJson kid)) ++ "." ++
           b64UrlNoPad (strBytes (payloadJson now (now + 5 * 60))))))).data] := by
  rw [mkGhostToken_data,
    splitOnChar_sep '.' _ _ (b64UrlNoPad_no_dot _),
    splitOnChar_sep '.' _ _ (b64UrlNoPad_no_dot _),
    splitOnChar_nosep '.' _ (b64UrlNoPad_no_dot _)]

theorem generate_ghost_jwt_eq (now : Nat) (cred kid : String) (key : List Nat)
    (hc : credParse cred = some (kid, key)) :
    generate_ghost_jwt now cred = some (mkGhostToken now kid key) := by
  simp [generate_ghost_jwt, hc]

theorem string_mk_dot_append (a b : String) : String.mk (a.data ++ '.' :: b.data) = a ++ "." ++ b := by
  apply String.ext
  simp [String.data_append]

/-- C1: for every valid credential, recomputing HMAC-SHA256 with the decoded
secret bytes over the first two dot-joined base64 segments of the generated
token, URL-safe base64-encoding the digest and stripping the `'='` padding,
reproduces the token's third segment exactly. -/
theorem ghost_jwt_signature_roundtrip (now : Nat) (cred kid : String) (key : List Nat)
    (hc : credParse cred = some (kid, key)) :
    ∃ tok a b, generate_ghost_jwt now cred = some tok ∧
      splitOnChar '.' tok.data =
        [a, b, (b64UrlNoPad (hmacSha256 key (strBytes (String.mk (a ++ '.' :: b))))).data] := by
  refine ⟨mkGhostToken now kid key, (b64UrlNoPad (strBytes (headerJson kid))).data,
    (b64UrlNoPad (strBytes (payloadJson now (now + 5 * 60)))).data,
    generate_ghost_jwt_eq now cred kid key hc, ?_⟩
  rw [mkGhostToken_split, string_mk_dot_append]

/-- Witness for C1 at the concrete credential `"id:0123"`. -/
theorem ghost_jwt_signature_roundtrip_witness :
    ∃ tok a b, generate_ghost_jwt 1700000000 "id:0123" = some tok ∧
      splitOnChar '.' tok.data =
        [a, b, (b64UrlNoPad (hmacSha256 [1, 35] (strBytes (String.mk (a ++ '.' :: b))))).data] :=
  ghost_jwt_signature_roundtrip 1700000000 "id:0123" "id" [1, 35] rfl

/-- C8: for every valid credential the generated token has exactly two `'.'`
separators and no `'='` padding character. -/
theorem ghost_jwt_two_dots_no_padding (now : Nat) (cred kid : String) (key : List Nat)
    (hc : credParse cred = some (kid, key)) :
    ∃ tok, generate_ghost_jwt now cred = some tok ∧
      tok.data.count '.' = 2 ∧ ('=' : Char) ∉ tok.data := by
  refine ⟨mkGhostToken now kid key, generate_ghost_jwt_eq now cred kid key hc, ?_, ?_⟩
  · rw [mkGhostToken_data, List.count_append, List.count_cons, List.count_append,
      List.count_cons]
    rw [List.count_eq_zero.mpr (b64UrlNoPad_no_dot _),
      List.count_eq_zero.mpr (b64UrlNoPad_no_dot _),
      List.count_eq_zero.mpr (b64UrlNoPad_no_dot _)]
    simp
  · rw [mkGhostToken_data]
    intro hmem
    rcases List.mem_append.mp hmem with h | h
    · exact b64UrlNoPad_no_pad _ h
    · rcases List.mem_cons.mp h with h | h
      · exact absurd h (by decide)
      · rcases List.mem_append.mp h with h | h
        · exact b64UrlNoPad_no_pad _ h
        · rcases List.mem_cons.mp h with h | h
          · exact absurd h (by decide)
          · exact b64UrlNoPad_no_pad _ h

/-- Witness for C8 at the concrete credential `"id:0123"`. -/
theorem ghost_jwt_two_dots_no_padding_witness :
    ∃ tok, generate_ghost_jwt 1700000000 "id:0123" = some tok ∧
      tok.data.count '.' = 2 ∧ ('=' : Char) ∉ tok.data :=
  ghost_jwt_two_dots_no_padding 1700000000 "id:0123" "id" [1, 35] rfl

/-- C7: decoding the first segment of a generated token yields exactly the
compact key-order-preserving JSON header, decoding the second yields the
payload with audience `"/admin/"` and `exp - iat = 300`. -/
theorem ghost_jwt_header_payload (now : Nat) (cred kid : String) (key : List Nat)
    (hc : credParse cred = some (kid, key)) :
    ∃ tok a b s, generate_ghost_jwt now cred = some tok ∧
      splitOnChar '.' tok.data = [a, b, s] ∧
      b64DecodeNoPad a = some (strBytes (headerJson kid)) ∧
      b64DecodeNoPad b = some (strBytes (payloadJson now (now + 300))) ∧
      (now + 300) - now = 300 := by
  refine ⟨mkGhostToken now kid key, (b64UrlNoPad (strBytes (headerJson kid))).data,
    (b64UrlNoPad (strBytes (payloadJson now (now + 300)))).data,
    (b64UrlNoPad (hmacSha256 key (strBytes
      (b64UrlNoPad (strBytes (headerJson kid)) ++ "." ++
        b64UrlNoPad (strBytes (payloadJson now (now + 300))))))).data,
    generate_ghost_jwt_eq now cred kid key hc, ?_, ?_, ?_, by omega⟩
  · rw [mkGhostToken_split]
  · exact b64DecodeNoPad_b64UrlNoPad _ (strBytes_lt _)
  · exact b64DecodeNoPad_b64UrlNoPad _ (strBytes_lt _)

/-- Witness for C7 at the concrete credential `"id:0123"`. -/
theorem ghost_jwt_header_payload_witness :
    ∃ tok a b s, generate_ghost_jwt 1700000000 "id:0123" = some tok ∧
      splitOnChar '.' tok.data = [a, b, s] ∧
      b64DecodeNoPad a = some (strBytes (headerJson "id")) ∧
      b64DecodeNoPad b = some (strBytes (payloadJson 1700000000 (1700000000 + 300))) ∧
      (1700000000 + 300) - 1700000000 = 300 :=
  ghost_jwt_header_payload 1700000000 "id:0123" "id" [1, 35] rfl

theorem isPySpace_eq_false_of_hex (c : Char) (h : isHexDigitChar c = true) :
    isPySpace c = false := by
  simp only [isHexDigitChar, Bool.or_eq_true, Bool.and_eq_true, decide_eq_true_eq] at h
  simp only [isPySpace, Bool.or_eq_false_iff, Bool.and_eq_false_iff, beq_eq_false_iff_ne,
    ne_eq, decide_eq_false_iff_not, not_le]
  omega

theorem hexDigitVal_isSome_of_hex (c : Char) (h : isHexDigitChar c = true) :
    ∃ v, hexDigitVal c = some v := by
  simp only [isHexDigitChar, Bool.or_eq_true, Bool.and_eq_true, decide_eq_true_eq] at h
  simp only [hexDigitVal]
  split_ifs with h1 h2 h3
  · exact ⟨_, rfl⟩
  · exact ⟨_, rfl⟩
  · exact ⟨_, rfl⟩
  · omega

theorem pyFromhex_isSome_of_evenHex :
    ∀ l : List Char, l.length % 2 = 0 → (∀ c ∈ l, isHexDigitChar c = true) →
      (pyFromhex l).isSome = true
  | [], _, _ => rfl
  | [c], hlen, _ => by simp at hlen
  | c1 :: c2 :: rest, hlen, hhex => by
    have h1 := hhex c1 (by simp)
    have h2 := hhex c2 (by simp)
    obtain ⟨v1, hv1⟩ := hexDigitVal_isSome_of_hex c1 h1
    obtain ⟨v2, hv2⟩ := hexDigitVal_isSome_of_hex c2 h2
    have ih := pyFromhex_isSome_of_evenHex rest
      (by simp only [List.length_cons] at hlen; omega) (fun c hc => hhex c (by simp [hc]))
    obtain ⟨r, hr⟩ := Option.isSome_iff_exists.mp ih
    simp only [pyFromhex, isPySpace_eq_false_of_hex c1 h1, Bool.false_eq_true, if_false,
      hv1, hv2, hr, Option.map_some']
    rfl

theorem pySplitColon_append (kid sec : String) (hk : ':' ∉ kid.data) (hs : ':' ∉ sec.data) :
    pySplitColon (kid ++ ":" ++ sec) = some (kid, sec) := by
  unfold pySplitColon
  have hdata : (kid ++ ":" ++ sec).data = kid.data ++ ':' :: sec.data := by
    simp [String.data_append]
  rw [hdata, splitOnChar_sep ':' _ _ hk, splitOnChar_nosep ':' _ hs]

theorem generate_ghost_jwt_isSome (now : Nat) (cred : String) :
    (generate_ghost_jwt now cred).isSome = (credParse cred).isSome := by
  unfold generate_ghost_jwt
  cases credParse cred <;> rfl

/-- C6 (amended): `build_token` fails for `"nocolon"`, `"id:not-hex-zz"` and
`""`; in general it fails exactly when the credential does not split into
exactly two fields on `":"` or the secret is rejected by Python's hex
decoding (an even count of hex digits, with ASCII whitespace allowed between
byte pairs); it succeeds for every credential with exactly one colon, a
non-empty identifier and an even-length secret of only hex digits. -/
theorem ghost_jwt_malformed_credentials (now : Nat) :
    generate_ghost_jwt now "nocolon" = none ∧
    generate_ghost_jwt now "id:not-hex-zz" = none ∧
    generate_ghost_jwt now "" = none ∧
    (∀ cred : String, (generate_ghost_jwt now cred).isSome = (credParse cred).isSome) ∧
    (∀ kid sec : String, kid ≠ "" → ':' ∉ kid.data → ':' ∉ sec.data →
      SpecEvenHexSecret sec → (generate_ghost_jwt now (kid ++ ":" ++ sec)).isSome = true) := by
  refine ⟨rfl, rfl, rfl, generate_ghost_jwt_isSome now, ?_⟩
  intro kid sec _ hk hs hhex
  rw [generate_ghost_jwt_isSome]
  unfold credParse
  rw [pySplitColon_append kid sec hk hs]
  obtain ⟨r, hr⟩ := Option.isSome_iff_exists.mp
    (pyFromhex_isSome_of_evenHex sec.data hhex.1 hhex.2)
  simp [hr]

/-- C6 counterexample: the credential `"id:aa bb"` has exactly one colon and
a secret that is not an even-length string of only hex digits, yet
`generate_ghost_jwt` succeeds on it, because `bytes.fromhex` skips ASCII
whitespace between byte pairs. -/
theorem ghost_jwt_malformed_counterexample :
    pySplitColon "id:aa bb" = some ("id", "aa bb") ∧
    ¬ SpecEvenHexSecret "aa bb" ∧
    (generate_ghost_jwt 0 "id:aa bb").isSome = true := by
  refine ⟨by decide, by decide, rfl⟩

/-- Witness for C6 (amended) at the concrete credential `"key:abcd"`. -/
theorem ghost_jwt_malformed_credentials_witness :
    (generate_ghost_jwt 5 ("key" ++ ":" ++ "abcd")).isSome = true :=
  (ghost_jwt_malformed_credentials 5).2.2.2.2 "key" "abcd" (by decide) (by decide)
    (by decide) (by decide)

theorem downloadLoop_pendingStep (env : Env) (vid outDir : String) (d : ℚ) (fuel i : Nat)
    (h : InProgress (env.statusResp i)) :
    downloadLoop env vid outDir d (fuel + 1) i =
      (.statusQuery i :: .sleep d :: (downloadLoop env vid outDir d fuel (i + 1)).1,
       (downloadLoop env vid outDir d fuel (i + 1)).2) := by
  obtain ⟨s, hs, hsc, hsf⟩ := h
  simp only [downloadLoop, hs, if_neg hsc, if_neg hsf]

theorem downloadLoop_completedStep (env : Env) (vid outDir : String) (d : ℚ) (fuel i : Nat)
    (url : String) (fr : FetchResponse)
    (h2 : (env.statusResp i).body_status = some "completed")
    (hu : (env.statusResp i).body_video_url = .str url)
    (hune : url ≠ "")
    (hf : env.fetchResp url = fr)
    (hfc : ¬(400 ≤ fr.httpCode ∧ fr.httpCode < 600)) :
    downloadLoop env vid outDir d (fuel + 1) i =
      ([.statusQuery i, .fetchGet url, .fileWrite (videoPath outDir vid) fr.content],
       .ok (videoPath outDir vid)) := by
  simp only [downloadLoop, h2, hu, hf, eq_self_iff_true, if_true, if_neg hune, if_neg hfc]

theorem downloadLoop_failedStep (env : Env) (vid outDir : String) (d : ℚ) (fuel i : Nat)
    (h : (env.statusResp i).body_status = some "failed") :
    downloadLoop env vid outDir d (fuel + 1) i =
      ([.statusQuery i], .error .processingFailed) := by
  simp only [downloadLoop, h,
    if_neg (show ¬("failed" : String) = "completed" by decide), eq_self_iff_true, if_true]

theorem downloadLoop_pending (env : Env) (vid outDir : String) (d : ℚ) :
    ∀ fuel i : Nat, (∀ j, j < fuel → InProgress (env.statusResp (i + j))) →
      downloadLoop env vid outDir d fuel i = (pendTrace d i fuel, .error .pollTimeout)
  | 0, i, _ => rfl
  | fuel + 1, i, h => by
    have h0 := h 0 (Nat.succ_pos fuel)
    rw [Nat.add_zero] at h0
    rw [downloadLoop_pendingStep env vid outDir d fuel i h0,
      downloadLoop_pending env vid outDir d fuel (i + 1) fun j hj => by
        have hg := h (j + 1) (by omega)
        rwa [show i + (j + 1) = i + 1 + j from by omega] at hg]
    rfl

theorem pendTrace_countP_query (d : ℚ) : ∀ i n, (pendTrace d i n).countP Event.isQuery = n
  | _, 0 => rfl
  | i, n + 1 => by
    simp [pendTrace, List.countP_cons, Event.isQuery, Event.isSleepEv,
      pendTrace_countP_query d (i + 1) n]

theorem pendTrace_countP_sleep (d : ℚ) : ∀ i n, (pendTrace d i n).countP Event.isSleepEv = n
  | _, 0 => rfl
  | i, n + 1 => by
    simp [pendTrace, List.countP_cons, Event.isQuery, Event.isSleepEv,
      pendTrace_countP_sleep d (i + 1) n]

theorem pendTrace_countP_fetch (d : ℚ) : ∀ i n, (pendTrace d i n).countP Event.isFetch = 0
  | _, 0 => rfl
  | i, n + 1 => by
    simp [pendTrace, List.countP_cons, Event.isFetch,
      pendTrace_countP_fetch d (i + 1) n]

theorem pendTrace_countP_write (d : ℚ) : ∀ i n, (pendTrace d i n).countP Event.isWrite = 0
  | _, 0 => rfl
  | i, n + 1 => by
    simp [pendTrace, List.countP_cons, Event.isWrite,
      pendTrace_countP_write d (i + 1) n]

/-- C2: a run whose status endpoint reports in-progress, in-progress, then
completed, with `max_attempts = 5` and a successful artifact fetch, returns
the saved-file path after exactly 3 status queries and exactly 2 sleeps, and
performs no further polling after the completed status. -/
theorem download_three_queries_two_sleeps (env : Env) (vid outDir url : String)
    (p : Nat) (fr : FetchResponse)
    (h0 : InProgress (env.statusResp 0))
    (h1 : InProgress (env.statusResp 1))
    (h2 : (env.statusResp 2).body_status = some "completed")
    (hu : (env.statusResp 2).body_video_url = .str url)
    (hune : url ≠ "")
    (hf : env.fetchResp url = fr)
    (hfc : ¬(400 ≤ fr.httpCode ∧ fr.httpCode < 600)) :
    download_video env vid outDir p 5 =
      ([.statusQuery 0, .sleep ((p : ℚ) / 1000), .statusQuery 1, .sleep ((p : ℚ) / 1000),
        .statusQuery 2, .fetchGet url, .fileWrite (videoPath outDir vid) fr.content],
       .ok (videoPath outDir vid)) ∧
    (download_video env vid outDir p 5).1.countP Event.isQuery = 3 ∧
    (download_video env vid outDir p 5).1.countP Event.isSleepEv = 2 := by
  have hrun : download_video env vid outDir p 5 =
      ([.statusQuery 0, .sleep ((p : ℚ) / 1000), .statusQuery 1, .sleep ((p : ℚ) / 1000),
        .statusQuery 2, .fetchGet url, .fileWrite (videoPath outDir vid) fr.content],
       .ok (videoPath outDir vid)) := by
    show downloadLoop env vid outDir ((p : ℚ) / 1000) 5 0 = _
    rw [show (5 : Nat) = 4 + 1 from rfl,
      downloadLoop_pendingStep env vid outDir _ 4 0 h0,
      show (4 : Nat) = 3 + 1 from rfl,
      downloadLoop_pendingStep env vid outDir _ 3 1 h1,
      show (3 : Nat) = 2 + 1 from rfl,
      downloadLoop_completedStep env vid outDir _ 2 2 url fr h2 hu hune hf hfc]
  refine ⟨hrun, ?_, ?_⟩ <;>
    simp [hrun, List.countP_cons, Event.isQuery, Event.isSleepEv, Event.isFetch,
      Event.isWrite]

/-- Witness for C2 on a concrete environment. -/
theorem download_three_queries_two_sleeps_witness :
    download_video
        ⟨fun i => if i < 2 then ⟨200, some "pending", .missing⟩
                  else ⟨200, some "completed", .str "http-u"⟩,
         fun _ => ⟨200, [7, 8]⟩⟩ "v" "out" 1000 5 =
      ([.statusQuery 0, .sleep ((1000 : ℚ) / 1000), .statusQuery 1,
        .sleep ((1000 : ℚ) / 1000), .statusQuery 2, .fetchGet "http-u",
        .fileWrite (videoPath "out" "v") [7, 8]],
       .ok (videoPath "out" "v")) ∧
    (download_video
        ⟨fun i => if i < 2 then ⟨200, some "pending", .missing⟩
                  else ⟨200, some "completed", .str "http-u"⟩,
         fun _ => ⟨200, [7, 8]⟩⟩ "v" "out" 1000 5).1.countP Event.isQuery = 3 ∧
    (download_video
        ⟨fun i => if i < 2 then ⟨200, some "pending", .missing⟩
                  else ⟨200, some "completed", .str "http-u"⟩,
         fun _ => ⟨200, [7, 8]⟩⟩ "v" "out" 1000 5).1.countP Event.isSleepEv = 2 :=
  download_three_queries_two_sleeps _ "v" "out" "http-u" 1000 ⟨200, [7, 8]⟩
    ⟨"pending", rfl, by decide, by decide⟩ ⟨"pending", rfl, by decide, by decide⟩
    rfl rfl (by decide) rfl (by decide)

/-- C3: a run whose every status query reports an in-progress status with
`max_attempts = N` raises the timeout error after exactly `N` status queries,
performs zero artifact fetches and writes no local file. -/
theorem download_timeout_no_fetch (env : Env) (vid outDir : String) (p N : Nat)
    (h : ∀ j, j < N → InProgress (env.statusResp j)) :
    (download_video env vid outDir p N).2 = .error .pollTimeout ∧
    (download_video env vid outDir p N).1.countP Event.isQuery = N ∧
    (download_video env vid outDir p N).1.countP Event.isFetch = 0 ∧
    (download_video env vid outDir p N).1.countP Event.isWrite = 0 := by
  have hrun : download_video env vid outDir p N =
      (pendTrace ((p : ℚ) / 1000) 0 N, .error .pollTimeout) :=
    downloadLoop_pending env vid outDir _ N 0 fun j hj => by
      have := h j hj
      rwa [Nat.zero_add]
  rw [hrun]
  exact ⟨rfl, pendTrace_countP_query _ _ _, pendTrace_countP_fetch _ _ _,
    pendTrace_countP_write _ _ _⟩

/-- Witness for C3 on a concrete environment with `max_attempts = 2`. -/
theorem download_timeout_no_fetch_witness :
    (download_video ⟨fun _ => ⟨200, some "processing", .missing⟩, fun _ => ⟨200, []⟩⟩
        "v" "out" 1000 2).2 = .error .pollTimeout ∧
    (download_video ⟨fun _ => ⟨200, some "processing", .missing⟩, fun _ => ⟨200, []⟩⟩
        "v" "out" 1000 2).1.countP Event.isQuery = 2 ∧
    (download_video ⟨fun _ => ⟨200, some "processing", .missing⟩, fun _ => ⟨200, []⟩⟩
        "v" "out" 1000 2).1.countP Event.isFetch = 0 ∧
    (download_video ⟨fun _ => ⟨200, some "processing", .missing⟩, fun _ => ⟨200, []⟩⟩
        "v" "out" 1000 2).1.countP Event.isWrite = 0 :=
  download_timeout_no_fetch _ "v" "out" 1000 2
    fun _ _ => ⟨"processing", rfl, by decide, by decide⟩

/-- C4: a run whose first status query reports `failed` raises the job-failure
error immediately after exactly one status query, with no sleep, no retry and
no artifact fetch. -/
theorem download_failed_first_query (env : Env) (vid outDir : String) (p N : Nat)
    (hN : 1 ≤ N)
    (h : (env.statusResp 0).body_status = some "failed") :
    download_video env vid outDir p N = ([.statusQuery 0], .error .processingFailed) := by
  obtain ⟨M, rfl⟩ : ∃ M, N = M + 1 := ⟨N - 1, by omega⟩
  exact downloadLoop_failedStep env vid outDir _ M 0 h

/-- Witness for C4 on a concrete environment. -/
theorem download_failed_first_query_witness :
    download_video ⟨fun _ => ⟨200, some "failed", .missing⟩, fun _ => ⟨200, []⟩⟩
        "v" "out" 1000 30 = ([.statusQuery 0], .error .processingFailed) :=
  download_failed_first_query _ "v" "out" 1000 30 (by omega) rfl

/-- C5 (amended): when a status query reports `completed` and the
`data.video_url` field is present but null or empty, the run raises the
missing-artifact error without attempting a fetch; when the field is entirely
absent from the response, the `KeyError` of the dictionary lookup propagates
instead, likewise without a fetch. -/
theorem download_completed_missing_artifact (env : Env) (vid outDir : String) (p N : Nat)
    (hN : 1 ≤ N)
    (h : (env.statusResp 0).body_status = some "completed") :
    ((env.statusResp 0).body_video_url = .null ∨ (env.statusResp 0).body_video_url = .str "" →
      download_video env vid outDir p N = ([.statusQuery 0], .error .missingUrl)) ∧
    ((env.statusResp 0).body_video_url = .missing →
      download_video env vid outDir p N = ([.statusQuery 0], .error .keyError)) := by
  obtain ⟨M, rfl⟩ : ∃ M, N = M + 1 := ⟨N - 1, by omega⟩
  constructor
  · rintro (hu | hu) <;>
      simp only [download_video, downloadLoop, h, hu, eq_self_iff_true, if_true]
  · intro hu
    simp only [download_video, downloadLoop, h, hu, eq_self_iff_true, if_true]

/-- C5 counterexample: with the `data.video_url` key absent from a `completed`
response the code raises the dictionary `KeyError`, not the explicit
missing-artifact `ValueError` (no fetch is attempted either way). -/
theorem download_missing_artifact_counterexample :
    (completedNoUrlKeyEnv.statusResp 0).body_video_url = .missing ∧
    (download_video completedNoUrlKeyEnv "vid" "out" 10000 30).2 = .error .keyError ∧
    DlError.keyError ≠ DlError.missingUrl ∧
    (download_video completedNoUrlKeyEnv "vid" "out" 10000 30).1.countP Event.isFetch = 0 :=
  ⟨rfl, rfl, by decide, rfl⟩

/-- Witness for C5 (amended) on a concrete environment with a null URL. -/
theorem download_completed_missing_artifact_witness :
    download_video ⟨fun _ => ⟨200, some "completed", .null⟩, fun _ => ⟨200, []⟩⟩
        "v" "out" 1000 30 = ([.statusQuery 0], .error .missingUrl) :=
  (download_completed_missing_artifact _ "v" "out" 1000 30 (by omega) rfl).1 (Or.inl rfl)

theorem downloadLoop_ignores_status_code (env env2 : Env) (vid outDir : String) (d : ℚ)
    (hb : ∀ i, (env.statusResp i).body_status = (env2.statusResp i).body_status ∧
      (env.statusResp i).body_video_url = (env2.statusResp i).body_video_url)
    (hf : env.fetchResp = env2.fetchResp) :
    ∀ fuel i : Nat,
      downloadLoop env vid outDir d fuel i = downloadLoop env2 vid outDir d fuel i
  | 0, _ => rfl
  | fuel + 1, i => by
    obtain ⟨hbs, hbu⟩ := hb i
    simp only [downloadLoop, hbs, hbu, hf,
      downloadLoop_ignores_status_code env env2 vid outDir d hb hf fuel (i + 1)]

/-- C9 (amended): only the artifact fetch is checked with
`raise_for_status()` — a 4xx/5xx fetch response propagates as a failure
carrying the status code and the response body, and is not retried — while
the per-iteration status query never inspects its HTTP status code: the run
depends only on the response bodies, so a non-2xx status response with an
in-progress body is treated as an in-progress poll result. -/
theorem download_transport_errors (env env2 : Env)
    (hb : ∀ i, (env.statusResp i).body_status = (env2.statusResp i).body_status ∧
      (env.statusResp i).body_video_url = (env2.statusResp i).body_video_url)
    (hf : env.fetchResp = env2.fetchResp) :
    (∀ (vid outDir : String) (p N : Nat),
      download_video env vid outDir p N = download_video env2 vid outDir p N) ∧
    (∀ (vid outDir url : String) (p N : Nat) (fr : FetchResponse), 1 ≤ N →
      (env.statusResp 0).body_status = some "completed" →
      (env.statusResp 0).body_video_url = .str url → url ≠ "" →
      env.fetchResp url = fr → 400 ≤ fr.httpCode → fr.httpCode < 600 →
      download_video env vid outDir p N =
        ([.statusQuery 0, .fetchGet url], .error (.httpError fr.httpCode fr.content))) := by
  constructor
  · intro vid outDir p N
    exact downloadLoop_ignores_status_code env env2 vid outDir _ hb hf N 0
  · intro vid outDir url p N fr hN h2 hu hune hfr hlo hhi
    obtain ⟨M, rfl⟩ : ∃ M, N = M + 1 := ⟨N - 1, by omega⟩
    have hune2 : url ≠ "" := hune
    show downloadLoop env vid outDir ((p : ℚ) / 1000) (M + 1) 0 = _
    simp only [downloadLoop, h2, hu, hfr, eq_self_iff_true, if_true, if_neg hune2,
      if_pos (And.intro hlo hhi)]

/-- C9 counterexample: a status query answered with HTTP code 500 and an
in-progress body is treated as an in-progress poll result — the run sleeps
and ends in the poll timeout — instead of propagating a remote-call failure
carrying the status code. -/
theorem download_transport_errors_counterexample :
    (error500PendingEnv.statusResp 0).httpCode = 500 ∧
    (download_video error500PendingEnv "vid" "out" 10000 1).2 = .error .pollTimeout ∧
    (download_video error500PendingEnv "vid" "out" 10000 1).1.countP Event.isSleepEv = 1 :=
  ⟨rfl, rfl, rfl⟩

/-- Witness for C9 (amended): the fetch-error half at a concrete environment,
where a completed status with a 503 artifact fetch propagates the code and
the response body. -/
theorem download_transport_errors_witness :
    download_video ⟨fun _ => ⟨200, some "completed", .str "u"⟩, fun _ => ⟨503, [9, 7]⟩⟩
        "v" "out" 1000 4 =
      ([.statusQuery 0, .fetchGet "u"], .error (.httpError 503 [9, 7])) :=
  (download_transport_errors
      ⟨fun _ => ⟨200, some "completed", .str "u"⟩, fun _ => ⟨503, [9, 7]⟩⟩
      ⟨fun _ => ⟨200, some "completed", .str "u"⟩, fun _ => ⟨503, [9, 7]⟩⟩
      (fun _ => ⟨rfl, rfl⟩) rfl).2
    "v" "out" "u" 1000 4 ⟨503, [9, 7]⟩ (by omega) rfl rfl (by decide) rfl (by decide)
    (by decide)

/-- C10: a run that ends in timeout with `max_attempts = N` performs exactly
`N` sleeps of `poll_interval / 1000` seconds each, one after every status
query — including one after the final query, just before the timeout error is
raised. -/
theorem download_timeout_sleep_pattern (env : Env) (vid outDir : String) (p N : Nat)
    (h : ∀ j, j < N → InProgress (env.statusResp j)) :
    (download_video env vid outDir p N).1 = pendTrace ((p : ℚ) / 1000) 0 N ∧
    (download_video env vid outDir p N).2 = .error .pollTimeout ∧
    (download_video env vid outDir p N).1.countP Event.isSleepEv = N := by
  have hrun : download_video env vid outDir p N =
      (pendTrace ((p : ℚ) / 1000) 0 N, .error .pollTimeout) :=
    downloadLoop_pending env vid outDir _ N 0 fun j hj => by
      have := h j hj
      rwa [Nat.zero_add]
  rw [hrun]
  exact ⟨rfl, rfl, pendTrace_countP_sleep _ _ _⟩

/-- Witness for C10 on a concrete environment with `max_attempts = 3`. -/
theorem download_timeout_sleep_pattern_witness :
    (download_video ⟨fun _ => ⟨200, some "waiting", .missing⟩, fun _ => ⟨200, []⟩⟩
        "v" "out" 2000 3).1 = pendTrace ((2000 : ℚ) / 1000) 0 3 ∧
    (download_video ⟨fun _ => ⟨200, some "waiting", .missing⟩, fun _ => ⟨200, []⟩⟩
        "v" "out" 2000 3).2 = .error .pollTimeout ∧
    (download_video ⟨fun _ => ⟨200, some "waiting", .missing⟩, fun _ => ⟨200, []⟩⟩
        "v" "out" 2000 3).1.countP Event.isSleepEv = 3 :=
  download_timeout_sleep_pattern _ "v" "out" 2000 3
    fun _ _ => ⟨"waiting", rfl, by decide, by decide⟩

end CursorPortal
